import Mathlib

/-!
Verification of the pure core of `imagelist-docker-events` (`main.go`).

Strings are modelled as `List Char`. The docker inspection result and the
per-attempt HTTP outcomes, which the program obtains from external
collaborators, are passed as explicit inputs to the embedded functions.
-/

set_option autoImplicit false

/-! ## The tag pattern

`main.go` line 30: `tagRegexp = regexp.MustCompile(` + ":([\\w][\\w.-]{0,127})$" + `)`.
The pattern is anchored at the end of the string and its character classes
exclude `:`, so a match, when it exists, is exactly the suffix after the
last `:` of the string; that suffix must be a word character followed by at
most 127 word/`.`/`-` characters. Go's `\w` is ASCII `[0-9A-Za-z_]`.
-/

/-- Go regexp `\w` on ASCII: letters, digits and underscore. -/
def isWordChar (c : Char) : Bool :=
  (('a' ≤ c && c ≤ 'z') || ('A' ≤ c && c ≤ 'Z') || ('0' ≤ c && c ≤ '9') || c == '_')

/-- Characters allowed after the first tag character: `[\w.-]`. -/
def isTagChar (c : Char) : Bool :=
  isWordChar c || c == '.' || c == '-'

/-- Splits a string at its last `:`; `none` when it has no `:`.
`splitLastColon s = some (pre, post)` means `s = pre ++ ':' :: post` and
`post` has no `:`. -/
def splitLastColon : List Char → Option (List Char × List Char)
  | [] => none
  | c :: rest =>
    match splitLastColon rest with
    | some (pre, post) => some (c :: pre, post)
    | none => if c == ':' then some ([], rest) else none

/-- The unique match of `tagRegexp` in a string, when it exists:
`some (pre, tag)` where the string is `pre ++ ":" ++ tag` and `tag` is the
capture group (a word character then up to 127 tag characters, running to
the end of the string). -/
def tagOf (s : List Char) : Option (List Char × List Char) :=
  match splitLastColon s with
  | none => none
  | some (pre, t) =>
    match t with
    | [] => none
    | h :: rest =>
      if isWordChar h && rest.all isTagChar && rest.length ≤ 127 then
        some (pre, h :: rest)
      else none

/-- `tagRegexp.MatchString`. -/
def tagMatchString (s : List Char) : Bool :=
  (tagOf s).isSome

/-- `tagRegexp.ReplaceAllString(s, "")`: removes the tag suffix when the
pattern matches, otherwise leaves the string unchanged. -/
def stripTag (s : List Char) : List Char :=
  match tagOf s with
  | some (pre, _) => pre
  | none => s

/-- Capture group 1 of `tagRegexp.FindStringSubmatch`, when the pattern
matches. -/
def findTagSubmatch (s : List Char) : Option (List Char) :=
  (tagOf s).map Prod.snd

/-! ## Digest resolution (`mapRepoDigestsToTags`, `getRepoDigests`) -/

/-- The two fields of docker's `types.ImageInspect` that
`mapRepoDigestsToTags` reads. -/
structure ImageInspect where
  RepoTags : List (List Char)
  RepoDigests : List (List Char)
  deriving DecidableEq, Repr

/-- The `image` struct of `main.go` (JSON fields `id`, `name`, `tags`). -/
structure image where
  ID : List Char
  Name : List Char
  Tags : List (List Char)
  deriving DecidableEq, Repr

/-- The `tags` accumulator of `mapRepoDigestsToTags`: the tag suffixes of
every repo-tag entry having `stripped` as a string prefix. -/
def matchingTags (stripped : List Char) (repoTags : List (List Char)) :
    List (List Char) :=
  repoTags.filterMap fun entry =>
    if stripped.isPrefixOf entry then findTagSubmatch entry else none

/-- `mapRepoDigestsToTags` of `main.go` (lines 190–216). Go builds a
string-keyed map in which every inserted value is the same `tags` list;
it is modelled as an association list with one entry per distinct
matching digest (Go map iteration order is unspecified, so all claims
about the result are order-insensitive). -/
def mapRepoDigestsToTags (name : List Char) (ii : ImageInspect) :
    List (List Char × List (List Char)) :=
  if name = [] then []
  else
    let stripped := stripTag name
    let tags := matchingTags stripped ii.RepoTags
    ((ii.RepoDigests.filter fun entry => stripped.isPrefixOf entry).dedup).map
      fun entry => (entry, tags)

deriving instance DecidableEq for Except

/-- Failure modes of the pure part of `getRepoDigests` (the docker
connection and inspection failures are external and factored out by
taking the inspection result as an input). -/
inductive ResolveError where
  | NoTagError
  | NoDigestsFoundError
  deriving DecidableEq, Repr

/-- `getRepoDigests` of `main.go` (lines 155–186), with the docker
inspection result passed in. As in Go, `mapRepoDigestsToTags` is applied
twice to the same arguments: once for the emptiness check and once for
the record-building loop. -/
def getRepoDigests (name : List Char) (ii : ImageInspect) :
    Except ResolveError (List image) :=
  if !tagMatchString name then .error .NoTagError
  else if mapRepoDigestsToTags name ii = [] then
    .error .NoDigestsFoundError
  else
    .ok ((mapRepoDigestsToTags name ii).map fun kv =>
      ⟨kv.1, stripTag name, kv.2⟩)

/-! ## The publish retry loop (`addToImageList`, lines 108–152)

The inner goroutine of `addToImageList` retries an HTTP PUT of one record.
The outcome of each attempt (transport error, or an HTTP status code) comes
from the network; it is modelled as an input function from the attempt
counter (0-based, the counter's value when the attempt starts) to the
outcome. `json.Marshal` of the `image` struct (strings and string slices
only) cannot fail, so the marshal-error return is not a reachable outcome.
-/

/-- Outcome of one `httpPut` call: a transport-level error, or a response
with the given status code. -/
inductive AttemptOutcome where
  | transportError
  | status (code : Nat)
  deriving DecidableEq, Repr

/-- An outcome the loop retries on: a transport error or HTTP 500. -/
def AttemptOutcome.transient : AttemptOutcome → Bool
  | .transportError => true
  | .status code => code == 500

/-- The log lines of the publish loop, by kind. -/
inductive LogEvent where
  | maxRetries
  | submitError
  | success
  | serverError
  | badRequest
  deriving DecidableEq, Repr

/-- Terminal state of one record's publish loop. -/
inductive PublishResult where
  | succeeded
  | givenUp
  deriving DecidableEq, Repr

/-- One loop iteration given this attempt's outcome: a transport error
logs and falls through to the rest of the loop (`continue`), adding one to
its attempt count; status 200 succeeds at once; status 500 logs and falls
through like a transport error; any other status gives up at once with a
bad-request log. `rest` is the remainder of the loop's run. -/
def publishStep (o : AttemptOutcome)
    (rest : PublishResult × Nat × List LogEvent) :
    PublishResult × Nat × List LogEvent :=
  match o with
  | .transportError => (rest.1, rest.2.1 + 1, .submitError :: rest.2.2)
  | .status code =>
    if code = 200 then (.succeeded, 1, [.success])
    else if code = 500 then (rest.1, rest.2.1 + 1, .serverError :: rest.2.2)
    else (.givenUp, 1, [.badRequest])

/-- The `for` loop of `addToImageList`'s goroutine. Go's loop state is the
counter `attempt`, which starts at 0, increases by 1 per iteration, and is
tested against 30 at the top; it is carried here together with
`remaining = 30 - attempt`, the recursion measure (so `remaining = 0`
is Go's `attempt == 30` test firing). Returns the terminal state, the
number of attempts performed, and the log lines in order. -/
def publishLoop (outcomes : Nat → AttemptOutcome) :
    Nat → Nat → PublishResult × Nat × List LogEvent
  | _, 0 => (.givenUp, 0, [.maxRetries])
  | attempt, remaining + 1 =>
    publishStep (outcomes attempt) (publishLoop outcomes (attempt + 1) remaining)

/-- One record's whole publish task: the loop entered with `attempt = 0`
and all 30 attempts of budget. -/
def addToImageListPublish (outcomes : Nat → AttemptOutcome) :
    PublishResult × Nat × List LogEvent :=
  publishLoop outcomes 0 30

/-! ## The event loop body (`processEvents`, lines 81–93) -/

/-- The fields of `events.Message` that `processEvents` reads. -/
structure Message where
  «Type» : List Char
  Action : List Char
  ID : List Char
  deriving DecidableEq, Repr

/-- What the `select` in `processEvents` receives in one iteration: a value
from the error channel (`none` models a `nil` error) or a message. -/
inductive EventInput where
  | errSignal (e : Option (List Char))
  | eofSignal
  | message (m : Message)
  deriving DecidableEq, Repr

/-- `processEvents` of `main.go`: one loop iteration. Returns `.error` when
the iteration fails (a non-nil, non-EOF error on the error channel), else
`.ok d` where `d` is the dispatched `addToImageList` task's arguments
(image name, url), `none` when nothing is dispatched. -/
def processEvents (input : EventInput) (url : List Char) :
    Except (List Char) (Option (List Char × List Char)) :=
  match input with
  | .errSignal none => .ok none
  | .errSignal (some e) => .error e
  | .eofSignal => .ok none
  | .message m =>
    if m.«Type» = "image".data ∧ m.Action = "push".data then
      .ok (some (m.ID, url))
    else .ok none

/-! ## `joinURL` (lines 229–240)

`joinURL` delegates to Go's `net/url` (`url.Parse` and
`URL.ResolveReference`), which is outside this repository. Its behaviour is
modelled from the spec: "resolves `subPath` against `base` per standard URL
reference-resolution rules" (RFC 3986 §5.3), restricted to hierarchical
URLs of the shape `scheme://host[/path]` and to path-only references —
the shapes this program ever passes. Opaque URLs, userinfo, query,
fragment and dot-segment removal are outside the model's scope:
`parseURL` answers `none` (a parse failure) on strings with a `:`-headed
prefix that is not a `scheme://`, and the inputs of interest contain no
dot segments, query or fragment.
-/

/-- The components of a parsed URL used by the resolution model. -/
structure GoURL where
  scheme : List Char
  host : List Char
  path : List Char
  deriving DecidableEq, Repr

/-- Splits a string at the first occurrence of `c`; `none` when `c` does
not occur. -/
def splitAtChar (c : Char) : List Char → Option (List Char × List Char)
  | [] => none
  | x :: xs =>
    if x == c then some ([], xs)
    else (splitAtChar c xs).map fun p => (x :: p.1, p.2)

/-- A character allowed in a URL scheme after the first (alphabetic)
character: ALPHA / DIGIT / `+` / `-` / `.`. -/
def isSchemeChar (c : Char) : Bool :=
  c.isAlpha || (('0' ≤ c && c ≤ '9') || c == '+' || c == '-' || c == '.')

/-- Splits `scheme://rest` into `(scheme, rest)` when the string starts
with a well-formed scheme followed by `://`; `none` otherwise. -/
def schemeSplit (s : List Char) : Option (List Char × List Char) :=
  match splitAtChar ':' s with
  | none => none
  | some (sch, rest) =>
    match sch with
    | [] => none
    | c0 :: _ =>
      if c0.isAlpha && sch.all isSchemeChar && decide (rest.take 2 = ['/', '/'])
      then some (sch, rest.drop 2)
      else none

/-- Modelled from the spec: `url.Parse` on the URL shapes this program
uses. An absolute URL `scheme://host[/path]` parses into its components; a
string without a `:` parses as a bare path reference; control characters
make parsing fail, as does a `:`-bearing string that is not an absolute
URL (outside the model's scope, see the section comment). -/
def parseURL (s : List Char) : Option GoURL :=
  if s.any fun c => c.toNat < 32 || c == ' ' then none
  else
    match schemeSplit s with
    | some (sch, afterSlashes) =>
      match splitAtChar '/' afterSlashes with
      | some (h, p) => some ⟨sch, h, '/' :: p⟩
      | none => some ⟨sch, afterSlashes, []⟩
    | none =>
      if s.any fun c => c == ':' then none
      else some ⟨[], [], s⟩

/-- The base path up to and including its last `/` (empty when the base
path has no `/`), prepended to the reference path: RFC 3986 §5.3 `merge`. -/
def mergePaths (basePath refPath : List Char) : List Char :=
  ((basePath.reverse.dropWhile fun c => c ≠ '/').reverse) ++ refPath

/-- Modelled from the spec: standard URL reference resolution
(RFC 3986 §5.3) on the modelled components. A reference with a scheme
stands alone; one with a host takes the base's scheme; an empty-path
reference keeps the base's path; a rooted path replaces the base's path;
a relative path is merged onto the base path's directory. -/
def resolveReference (base ref : GoURL) : GoURL :=
  if !ref.scheme.isEmpty then ref
  else if !ref.host.isEmpty then ⟨base.scheme, ref.host, ref.path⟩
  else if ref.path.isEmpty then ⟨base.scheme, base.host, base.path⟩
  else if decide (ref.path.take 1 = ['/']) then ⟨base.scheme, base.host, ref.path⟩
  else ⟨base.scheme, base.host, mergePaths base.path ref.path⟩

/-- `URL.String` on the modelled components. -/
def urlString (u : GoURL) : List Char :=
  if u.scheme.isEmpty then u.path
  else u.scheme ++ (':' :: '/' :: '/' :: u.host) ++ u.path

/-- `joinURL` of `main.go`: parse the sub-path, parse the base, resolve
and render. Parse failure of either input is the `URLParseError` of the
spec. -/
def joinURL (u path : List Char) : Option (List Char) :=
  match parseURL path with
  | none => none
  | some p =>
    match parseURL u with
    | none => none
    | some base => some (urlString (resolveReference base p))

/-! ## Theorems -/

/-- The tag pattern model on the repository's own test inputs
(`main_test.go`): match, strip and capture behave as the regexp does. -/
theorem tagRegexp_test_inputs :
    tagOf "a/b:v1".data = some ("a/b".data, "v1".data) ∧
    tagOf "foo/bar:notpushedyet".data
      = some ("foo/bar".data, "notpushedyet".data) ∧
    tagOf "quay.io/vaijab/did:v1.1".data
      = some ("quay.io/vaijab/did".data, "v1.1".data) ∧
    tagMatchString "quay.io/vaijab/did".data = false ∧
    stripTag "a:b:c".data = "a:b".data := by
  decide

/-- The URL model parses the two shapes `joinURL` receives, and resolving
a relative (non-rooted) sub-path appends it to the base path's
directory. -/
theorem parseURL_shapes :
    parseURL "http://host/base".data
      = some ⟨"http".data, "host".data, "/base".data⟩ ∧
    parseURL "/images".data = some ⟨[], [], "/images".data⟩ ∧
    joinURL "http://host/base/".data "images".data
      = some "http://host/base/images".data := by
  decide

theorem publishLoop_succ (outcomes : Nat → AttemptOutcome)
    (attempt remaining : Nat) :
    publishLoop outcomes attempt (remaining + 1)
      = publishStep (outcomes attempt)
          (publishLoop outcomes (attempt + 1) remaining) := by
  simp [publishLoop]

theorem publishLoop_attempts_le (outcomes : Nat → AttemptOutcome) :
    ∀ (remaining attempt : Nat),
      (publishLoop outcomes attempt remaining).2.1 ≤ remaining := by
  intro remaining
  induction remaining with
  | zero => intro attempt; simp [publishLoop]
  | succ r ih =>
    intro attempt
    rw [publishLoop_succ]
    cases outcomes attempt with
    | transportError =>
      simpa [publishStep] using ih (attempt + 1)
    | status code =>
      simp only [publishStep]
      by_cases h200 : code = 200
      · simp [h200]
      · by_cases h500 : code = 500
        · rw [if_neg h200, if_pos h500]
          simpa using ih (attempt + 1)
        · simp [h200, h500]

theorem publishLoop_transient (outcomes : Nat → AttemptOutcome) :
    ∀ (remaining attempt : Nat),
      (∀ i, attempt ≤ i → i < attempt + remaining →
        (outcomes i).transient = true) →
      (publishLoop outcomes attempt remaining).1 = .givenUp ∧
      (publishLoop outcomes attempt remaining).2.1 = remaining ∧
      LogEvent.maxRetries ∈ (publishLoop outcomes attempt remaining).2.2 ∧
      LogEvent.success ∉ (publishLoop outcomes attempt remaining).2.2 := by
  intro remaining
  induction remaining with
  | zero => intro attempt _; simp [publishLoop]
  | succ r ih =>
    intro attempt h
    have htr : (outcomes attempt).transient = true :=
      h attempt (Nat.le_refl _) (by omega)
    have ihnext := ih (attempt + 1) (fun i h1 h2 => h i (by omega) (by omega))
    rw [publishLoop_succ]
    cases hout : outcomes attempt with
    | transportError =>
      simpa [publishStep] using ihnext
    | status code =>
      rw [hout] at htr
      have h500 : code = 500 := by
        simpa [AttemptOutcome.transient] using htr
      simp only [publishStep]
      rw [if_neg (by omega : ¬ code = 200), if_pos h500]
      simpa using ihnext

/-- C2: for every sequence of per-attempt outcomes the publish loop makes
at most 30 attempts; when every outcome is transient (transport error or
HTTP 500) it makes exactly 30 attempts, ends in `givenUp`, logs the
max-retries line and never logs a success line. -/
theorem addToImageList_retry_bound (outcomes : Nat → AttemptOutcome) :
    (addToImageListPublish outcomes).2.1 ≤ 30 ∧
    ((∀ i, i < 30 → (outcomes i).transient = true) →
      (addToImageListPublish outcomes).1 = .givenUp ∧
      (addToImageListPublish outcomes).2.1 = 30 ∧
      LogEvent.maxRetries ∈ (addToImageListPublish outcomes).2.2 ∧
      LogEvent.success ∉ (addToImageListPublish outcomes).2.2) := by
  refine ⟨publishLoop_attempts_le outcomes 30 0, fun h => ?_⟩
  exact publishLoop_transient outcomes 30 0 (fun i _ h2 => h i (by omega))

theorem addToImageList_retry_bound_witness :
    (addToImageListPublish fun _ => .status 500).1 = .givenUp ∧
    (addToImageListPublish fun _ => .status 500).2.1 = 30 ∧
    LogEvent.maxRetries ∈ (addToImageListPublish fun _ => .status 500).2.2 ∧
    LogEvent.success ∉ (addToImageListPublish fun _ => .status 500).2.2 :=
  (addToImageList_retry_bound fun _ => .status 500).2 fun _ _ => rfl

/-- C4: a first attempt answered with a status other than 200 and 500 ends
the publish loop at once: exactly one attempt, `givenUp`, one bad-request
log line. -/
theorem addToImageList_short_circuit (outcomes : Nat → AttemptOutcome)
    (code : Nat) (h0 : outcomes 0 = .status code)
    (h200 : code ≠ 200) (h500 : code ≠ 500) :
    addToImageListPublish outcomes
      = (.givenUp, 1, [.badRequest]) := by
  show publishLoop outcomes 0 (29 + 1) = _
  rw [publishLoop_succ, h0]
  simp only [publishStep]
  rw [if_neg h200, if_neg h500]

theorem addToImageList_short_circuit_witness :
    addToImageListPublish (fun _ => .status 404)
      = (.givenUp, 1, [.badRequest]) :=
  addToImageList_short_circuit (fun _ => .status 404) 404 rfl
    (by decide) (by decide)

/-- C1 counterexample: `joinURL "http://host/base" "/images"` succeeds but
returns `http://host/images`, which differs from the claimed
`http://host/base/images`: the leading-slash sub-path is an absolute path
reference, so resolution replaces the base's path. -/
theorem joinURL_base_path_cex :
    joinURL "http://host/base".data "/images".data
      = some "http://host/images".data ∧
    "http://host/images".data ≠ "http://host/base/images".data := by
  decide

/-- C1 amended: for base URL `http://host/base` and sub-path `/images`,
`joinURL` succeeds and returns `http://host/images`, computed by standard
URL reference-resolution (the absolute-path sub-path replaces the base's
path, rather than being concatenated after it). -/
theorem joinURL_base_path :
    joinURL "http://host/base".data "/images".data
      = some "http://host/images".data := by
  decide

/-- The inspection result of the C3 example. -/
def inspC3 : ImageInspect :=
  ⟨["foo/bar:notpushedyet".data, "a/b:v1".data, "a/b:latest".data],
   ["a/b@sha1".data, "c/d@sha2".data]⟩

/-- C3: every entry of `mapRepoDigestsToTags` carries the same tag list —
the tag suffixes of all repo-tags sharing the bare repository prefix — and
on the concrete example (repo-tags `foo/bar:notpushedyet`, `a/b:v1`,
`a/b:latest`; repo-digests `a/b@sha1`, `c/d@sha2`) resolving `a/b:v1`
yields exactly the one record `{digest: a/b@sha1, repository: a/b,
tags: [v1, latest]}`. -/
theorem mapRepoDigests_prefix_grouping :
    (∀ (name : List Char) (ii : ImageInspect)
        (kv : List Char × List (List Char)),
        kv ∈ mapRepoDigestsToTags name ii →
        kv.2 = matchingTags (stripTag name) ii.RepoTags) ∧
    getRepoDigests "a/b:v1".data inspC3
      = .ok [⟨"a/b@sha1".data, "a/b".data, ["v1".data, "latest".data]⟩] := by
  constructor
  · intro name ii kv hkv
    unfold mapRepoDigestsToTags at hkv
    split at hkv
    · simp at hkv
    · simp only [List.mem_map] at hkv
      obtain ⟨e, _, rfl⟩ := hkv
      rfl
  · decide

theorem mapRepoDigests_prefix_grouping_witness :
    (("a/b@sha1".data, ["v1".data, "latest".data]) :
        List Char × List (List Char)).2
      = matchingTags (stripTag "a/b:v1".data) inspC3.RepoTags :=
  mapRepoDigests_prefix_grouping.1 "a/b:v1".data inspC3
    ("a/b@sha1".data, ["v1".data, "latest".data]) (by decide)

/-- C5: a name that does not match the tag-suffix pattern makes resolution
fail with `NoTagError` and produce no records, for every inspection
result. -/
theorem getRepoDigests_noTag (name : List Char) (ii : ImageInspect)
    (h : tagMatchString name = false) :
    getRepoDigests name ii = .error .NoTagError := by
  simp [getRepoDigests, h]

theorem getRepoDigests_noTag_witness :
    getRepoDigests "a/b".data ⟨[], []⟩ = .error .NoTagError :=
  getRepoDigests_noTag "a/b".data ⟨[], []⟩ (by decide)

/-- C6: for a tag-qualified name whose bare repository prefix matches no
repo-digest entry, resolution fails with `NoDigestsFoundError` and
produces no records. -/
theorem getRepoDigests_noDigests (name : List Char) (ii : ImageInspect)
    (htag : tagMatchString name = true)
    (hnone : ∀ d ∈ ii.RepoDigests, (stripTag name).isPrefixOf d = false) :
    getRepoDigests name ii = .error .NoDigestsFoundError := by
  have hne : name ≠ [] := by
    intro hnil
    rw [hnil] at htag
    exact absurd htag (by decide)
  have hfil : ii.RepoDigests.filter
      (fun entry => (stripTag name).isPrefixOf entry) = [] := by
    rw [List.filter_eq_nil_iff]
    intro a ha
    simp [hnone a ha]
  have hmap : mapRepoDigestsToTags name ii = [] := by
    unfold mapRepoDigestsToTags
    rw [if_neg hne]
    simp [hfil]
  simp [getRepoDigests, htag, hmap]

theorem getRepoDigests_noDigests_witness :
    getRepoDigests "a/b:v1".data ⟨[], ["x/y@sha".data]⟩
      = .error .NoDigestsFoundError :=
  getRepoDigests_noDigests "a/b:v1".data ⟨[], ["x/y@sha".data]⟩
    (by decide) (by decide)

/-- C7 counterexample: resolution of `a:b:c` (a name whose bare repository
still ends in a colon-led tag-shaped suffix) succeeds, and the returned
record's repository `a:b` itself matches the tag-suffix pattern — the
repository field is not always free of a tag suffix. -/
theorem getRepoDigests_repository_tag_cex :
    getRepoDigests "a:b:c".data ⟨[], ["a:b@sha".data]⟩
      = .ok [⟨"a:b@sha".data, "a:b".data, []⟩] ∧
    tagMatchString "a:b".data = true := by
  decide

/-- C7 amended: on success, every returned record's repository field is
the input image name with one application of the tag pattern's strip (the
trailing tag suffix removed); when the stripped name still ends in a
colon-led tag-shaped suffix, the repository itself may match the
pattern. -/
theorem getRepoDigests_repository_stripped (name : List Char)
    (ii : ImageInspect) (imgs : List image)
    (h : getRepoDigests name ii = .ok imgs) :
    ∀ r ∈ imgs, r.Name = stripTag name := by
  unfold getRepoDigests at h
  split at h
  · exact absurd h (by simp)
  · split at h
    · exact absurd h (by simp)
    · injection h with h
      subst h
      intro r hr
      simp only [List.mem_map] at hr
      obtain ⟨kv, _, rfl⟩ := hr
      rfl

theorem getRepoDigests_repository_stripped_witness :
    (⟨"a/b@sha1".data, "a/b".data, ["v1".data]⟩ : image).Name
      = stripTag "a/b:v1".data :=
  getRepoDigests_repository_stripped "a/b:v1".data
    ⟨["a/b:v1".data], ["a/b@sha1".data]⟩
    [⟨"a/b@sha1".data, "a/b".data, ["v1".data]⟩] (by decide)
    ⟨"a/b@sha1".data, "a/b".data, ["v1".data]⟩ (by decide)

/-- C8: a received message dispatches an `addToImageList` task exactly
when its type is `image` and its action is `push`; any other message is
ignored and the iteration returns without error. -/
theorem processEvents_dispatch (m : Message) (url : List Char) :
    (processEvents (.message m) url = .ok (some (m.ID, url)) ↔
      m.«Type» = "image".data ∧ m.Action = "push".data) ∧
    (¬(m.«Type» = "image".data ∧ m.Action = "push".data) →
      processEvents (.message m) url = .ok none) := by
  simp only [processEvents]
  constructor
  · constructor
    · intro h
      by_contra hc
      rw [if_neg hc] at h
      exact absurd h (by simp)
    · intro h
      rw [if_pos h]
  · intro h
    rw [if_neg h]

theorem processEvents_dispatch_witness :
    processEvents (.message ⟨"image".data, "push".data, "img".data⟩)
        "u".data
      = .ok (some ("img".data, "u".data)) :=
  (processEvents_dispatch ⟨"image".data, "push".data, "img".data⟩
    "u".data).1.mpr (by decide)

/-- C9: resolution is deterministic in its inputs — the same name against
inspection results with the same repo-tags and repo-digests yields the
same records. -/
theorem getRepoDigests_deterministic (name : List Char)
    (ii jj : ImageInspect)
    (ht : ii.RepoTags = jj.RepoTags)
    (hd : ii.RepoDigests = jj.RepoDigests) :
    getRepoDigests name ii = getRepoDigests name jj := by
  cases ii
  cases jj
  cases ht
  cases hd
  rfl

theorem getRepoDigests_deterministic_witness :
    getRepoDigests "a/b:v1".data ⟨["a/b:v1".data], ["a/b@sha1".data]⟩
      = getRepoDigests "a/b:v1".data ⟨["a/b:v1".data], ["a/b@sha1".data]⟩ :=
  getRepoDigests_deterministic "a/b:v1".data
    ⟨["a/b:v1".data], ["a/b@sha1".data]⟩
    ⟨["a/b:v1".data], ["a/b@sha1".data]⟩ rfl rfl

/-- C10: matching is raw string prefix, not path-component-aware:
resolving `a/b:v1` against an inspection result whose only digest belongs
to the different repository `a/bc` still returns a record for that digest,
with the tag `v2` of repo-tag `a/bc:v2` attached to it. -/
theorem mapRepoDigests_raw_string_match :
    getRepoDigests "a/b:v1".data ⟨["a/bc:v2".data], ["a/bc@sha2".data]⟩
      = .ok [⟨"a/bc@sha2".data, "a/b".data, ["v2".data]⟩] := by
  decide
